/-
Verification of the tournament-backend score service (src/server.js).

The service keeps one SQLite row per registration number in the table
`tournament_scores` and exposes HTTP endpoints for submitting scores,
reading a ranked leaderboard, aggregate statistics, a single participant's
rank, and administrative clearing.  This file gives a shallow embedding of
the store (the table plus the connection's last-insert rowid) and of each
endpoint handler, and proves the specification claims about them.

Modelling conventions:
- SQLite rows are a `Rec`; the table is a `List Rec` in rowid/insertion
  order.  `AUTOINCREMENT` rowids are modelled by `nextId`; the sqlite3
  driver's `this.lastID` (last insert rowid of the connection) by
  `lastInsertId`.
- JavaScript values that may be absent are `Option`; `finalScore`, whose
  handling distinguishes `undefined` from `null` (`finalScore === undefined`),
  is the three-valued `JsInt`.
- JavaScript `x || d` defaulting (falsy: undefined, null, "", 0) is the
  `jsOr*` helpers.
- `CURRENT_TIMESTAMP` / `new Date()` are a `Nat` parameter `now` supplied by
  the caller of each operation.
- SQL `REAL` (`accuracy_rate`, the `AVG` aggregates) is modelled by `Rat`;
  no claim depends on floating-point rounding.
- `ORDER BY final_score DESC, completion_time ASC` with `ROW_NUMBER()` is
  modelled by `List.mergeSort` under `lbLE` followed by `rankRows`.
-/
import Mathlib

set_option linter.unusedVariables false

/-- A JavaScript value that is either `undefined`, `null`, or an integer;
used for `finalScore`, where the handler tests `finalScore === undefined`. -/
inductive JsInt where
  | undef : JsInt
  | null : JsInt
  | val : Int → JsInt
deriving DecidableEq, Repr

/-- One row of the `tournament_scores` table (src/server.js lines 34-48). -/
structure Rec where
  id : Nat
  registrationNumber : String
  studentName : String
  finalScore : Int
  levelsCompleted : Int
  accuracyRate : Rat
  timeRemaining : Int
  levelBreakdown : String
  completionTime : Nat
  ipAddress : String
  sessionId : Option String
deriving DecidableEq, Repr

/-- The database state: the table rows in rowid order, the next
`AUTOINCREMENT` rowid, and the connection's last-insert rowid
(what `this.lastID` reports). -/
structure Store where
  recs : List Rec
  nextId : Nat
  lastInsertId : Nat
deriving DecidableEq, Repr

/-- A fresh database: empty table, rowids start at 1. -/
def emptyStore : Store := ⟨[], 1, 0⟩

/-- The `UNIQUE` constraint on `registration_number`: rows have pairwise
distinct registration numbers. -/
def Store.WF (st : Store) : Prop :=
  st.recs.Pairwise (fun a b => a.registrationNumber ≠ b.registrationNumber)

instance (st : Store) : Decidable st.WF := by
  unfold Store.WF; infer_instance

/-- The JSON body of a POST /api/submit-score request (src/server.js
lines 67-76).  `levelBreakdown` is opaque structured data; we model it by
its JSON-serialised string. -/
structure SubmitReq where
  registrationNumber : Option String
  studentName : Option String
  finalScore : JsInt
  levelsCompleted : Option Int
  accuracyRate : Option Rat
  timeRemaining : Option Int
  levelBreakdown : Option String
  sessionId : Option String
deriving DecidableEq, Repr

/-- JavaScript `x || d` for an optional string: absent and `""` are falsy. -/
def jsOrStr (x : Option String) (d : String) : String :=
  match x with
  | none => d
  | some s => if s = "" then d else s

/-- JavaScript `x || d` for an optional integer: absent and `0` are falsy. -/
def jsOrInt (x : Option Int) (d : Int) : Int :=
  match x with
  | none => d
  | some n => if n = 0 then d else n

/-- JavaScript `x || d` for an optional rational: absent and `0` are falsy. -/
def jsOrRat (x : Option Rat) (d : Rat) : Rat :=
  match x with
  | none => d
  | some q => if q = 0 then d else q

/-- `JSON.stringify(levelBreakdown || {})`: an absent breakdown serialises
to `"{}"`; a present one is kept as its serialised form. -/
def jsBreakdown (x : Option String) : String :=
  match x with
  | none => "{}"
  | some s => s

/-- `SELECT ... WHERE registration_number = ?`: the row for a key, if any. -/
def findRec (recs : List Rec) (reg : String) : Option Rec :=
  recs.find? (fun r => r.registrationNumber = reg)

/-- The `DO UPDATE SET` branch of the upsert (src/server.js lines 94-106):
`final_score` is kept unless the incoming score is strictly greater; every
other mutable column is overwritten with the incoming value, and
`completion_time` is reset to the current timestamp. -/
def mergeRow (old : Rec) (name : String) (score : Int) (levels : Int)
    (acc : Rat) (time : Int) (breakdown : String) (ip : String)
    (sid : Option String) (now : Nat) : Rec :=
  { old with
    studentName := name
    finalScore := if score > old.finalScore then score else old.finalScore
    levelsCompleted := levels
    accuracyRate := acc
    timeRemaining := time
    levelBreakdown := breakdown
    completionTime := now
    ipAddress := ip
    sessionId := sid }

/-- The `INSERT ... ON CONFLICT(registration_number) DO UPDATE` statement
(src/server.js lines 89-107) run against the store.  `score = none` models
binding SQL `NULL` for `final_score`; SQLite checks the `NOT NULL` column
constraint while building the candidate row, before uniqueness-conflict
resolution, so a `NULL` score fails the whole statement on both paths. -/
def upsertRun (st : Store) (reg name : String) (score : Option Int)
    (levels : Int) (acc : Rat) (time : Int) (breakdown : String)
    (ip : String) (sid : Option String) (now : Nat) : Except String Store :=
  match score with
  | none => .error "NOT NULL constraint failed: tournament_scores.final_score"
  | some n =>
    match findRec st.recs reg with
    | some _ =>
      .ok { st with
        recs := st.recs.map (fun r =>
          if r.registrationNumber = reg then
            mergeRow r name n levels acc time breakdown ip sid now
          else r) }
    | none =>
      .ok { recs := st.recs ++
              [{ id := st.nextId
                 registrationNumber := reg
                 studentName := name
                 finalScore := n
                 levelsCompleted := levels
                 accuracyRate := acc
                 timeRemaining := time
                 levelBreakdown := breakdown
                 completionTime := now
                 ipAddress := ip
                 sessionId := sid }]
            nextId := st.nextId + 1
            lastInsertId := st.nextId }

/-- The JSON body answered by a successful POST /api/submit-score
(src/server.js lines 128-133). -/
structure SubmitResponse where
  success : Bool
  message : String
  scoreId : Nat
  rank : Option Nat
deriving DecidableEq, Repr

/-- Outcome of POST /api/submit-score: HTTP 400 (validation), HTTP 500
(database error), or HTTP 200 with the response body. -/
inductive SubmitOutcome where
  | invalidArgument : String → SubmitOutcome
  | dbError : String → SubmitOutcome
  | ok : SubmitResponse → SubmitOutcome
deriving DecidableEq, Repr

/-- The POST /api/submit-score handler (src/server.js lines 66-135):
validation `if (!registrationNumber || finalScore === undefined)`, then the
upsert with JavaScript `||` defaults applied to the optional fields, then
the response carrying `this.lastID`. -/
def submit (st : Store) (now : Nat) (ip : String) (req : SubmitReq) :
    SubmitOutcome × Store :=
  if req.registrationNumber.getD "" = "" ∨ req.finalScore = JsInt.undef then
    (.invalidArgument "Registration number and final score are required.", st)
  else
    let reg := req.registrationNumber.getD ""
    let score : Option Int :=
      match req.finalScore with
      | .val n => some n
      | _ => none
    match upsertRun st reg (jsOrStr req.studentName "Anonymous") score
        (jsOrInt req.levelsCompleted 0) (jsOrRat req.accuracyRate 0)
        (jsOrInt req.timeRemaining 0) (jsBreakdown req.levelBreakdown)
        ip req.sessionId now with
    | .error _ => (.dbError "Error saving score to database.", st)
    | .ok st' =>
      (.ok { success := true
             message := "Score submitted successfully!"
             scoreId := st'.lastInsertId
             rank := none }, st')

/-- A submit-score call together with its ambient request time and client
address, for reasoning about sequences of submissions. -/
structure SubCall where
  now : Nat
  ip : String
  req : SubmitReq
deriving DecidableEq, Repr

/-- The store after a sequence of submit-score calls. -/
def submitAll (st : Store) (calls : List SubCall) : Store :=
  calls.foldl (fun s c => (submit s c.now c.ip c.req).2) st

/-- The integer a call's `finalScore` carries (0 for undefined/null; only
used on calls whose `finalScore` is `JsInt.val _`). -/
def scoreOf (c : SubCall) : Int :=
  match c.req.finalScore with
  | .val n => n
  | _ => 0

/-- A call is a well-formed submission for key `k`: the registration number
is `k` and the score is an explicit integer. -/
def IsCallFor (k : String) (c : SubCall) : Prop :=
  c.req.registrationNumber = some k ∧ c.req.finalScore = JsInt.val (scoreOf c)

instance (k : String) (c : SubCall) : Decidable (IsCallFor k c) := by
  unfold IsCallFor; infer_instance

/-- `ORDER BY final_score DESC, completion_time ASC` as a boolean total
preorder on rows. -/
def lbLE (r1 r2 : Rec) : Bool :=
  decide (r2.finalScore < r1.finalScore ∨
    (r1.finalScore = r2.finalScore ∧ r1.completionTime ≤ r2.completionTime))

/-- One row of the leaderboard / rank query results: the table columns
selected together with the computed `ROW_NUMBER()` rank
(src/server.js lines 142-156). -/
structure LbEntry where
  rank : Nat
  registration_number : String
  student_name : String
  final_score : Int
  levels_completed : Int
  accuracy_rate : Rat
  time_remaining : Int
  level_breakdown : String
  completion_time : Nat
deriving DecidableEq, Repr

/-- The leaderboard row built from the table row at 0-based sort
position `i`: `ROW_NUMBER()` is `i + 1`. -/
def toEntry (i : Nat) (r : Rec) : LbEntry :=
  { rank := i + 1
    registration_number := r.registrationNumber
    student_name := r.studentName
    final_score := r.finalScore
    levels_completed := r.levelsCompleted
    accuracy_rate := r.accuracyRate
    time_remaining := r.timeRemaining
    level_breakdown := r.levelBreakdown
    completion_time := r.completionTime }

/-- Attach `ROW_NUMBER()` ranks to an already sorted row list, starting at
0-based position `i`. -/
def rankRows : Nat → List Rec → List LbEntry
  | _, [] => []
  | i, r :: rs => toEntry i r :: rankRows (i + 1) rs

/-- The full ranked table: every row, sorted by
`final_score DESC, completion_time ASC`, with 1-based ranks. -/
def ranked (st : Store) : List LbEntry :=
  rankRows 0 (st.recs.mergeSort lbLE)

/-- `parseInt(req.query.limit) || 100`: an absent or non-numeric limit
parses to `NaN`, which is falsy, and an explicit `0` is falsy too, so both
fall back to 100 (src/server.js line 139). -/
def parseLimit (q : Option Int) : Int :=
  match q with
  | none => 100
  | some n => if n = 0 then 100 else n

/-- `parseInt(req.query.offset) || 0` (src/server.js line 140). -/
def parseOffset (q : Option Int) : Int :=
  match q with
  | none => 0
  | some n => if n = 0 then 0 else n

/-- The GET /api/leaderboard handler (src/server.js lines 138-179): rank
the whole table, then apply SQL `LIMIT ? OFFSET ?` (a negative `LIMIT`
means no limit in SQLite; a negative `OFFSET` behaves as 0). -/
def leaderboard (st : Store) (limitQ offsetQ : Option Int) : List LbEntry :=
  let limit := parseLimit limitQ
  let offset := parseOffset offsetQ
  let rows := (ranked st).drop offset.toNat
  if limit < 0 then rows else rows.take limit.toNat

/-- The row answered by GET /api/stats (src/server.js lines 183-191):
`COUNT(*)`, `MAX(final_score)`, `AVG(final_score)`,
`AVG(levels_completed)`, `AVG(accuracy_rate)`.  Over an empty table the
SQL aggregates `MAX` and `AVG` are `NULL`, hence `Option`. -/
structure StatsRow where
  total_participants : Nat
  highest_score : Option Int
  average_score : Option Rat
  average_levels_completed : Option Rat
  average_accuracy : Option Rat
deriving DecidableEq, Repr

/-- The GET /api/stats handler's query result. -/
def stats (st : Store) : StatsRow :=
  match st.recs with
  | [] => ⟨0, none, none, none, none⟩
  | r :: rs =>
    let n : Nat := (r :: rs).length
    { total_participants := n
      highest_score := some ((rs.map (fun x => x.finalScore)).foldl max r.finalScore)
      average_score :=
        some ((((r :: rs).map (fun x => (x.finalScore : Rat))).foldl (· + ·) 0) / n)
      average_levels_completed :=
        some ((((r :: rs).map (fun x => (x.levelsCompleted : Rat))).foldl (· + ·) 0) / n)
      average_accuracy :=
        some ((((r :: rs).map (fun x => x.accuracyRate)).foldl (· + ·) 0) / n) }

/-- The row answered by GET /api/rank/:registrationNumber (src/server.js
lines 213-230): the ranked row for one key; the query's column list omits
`level_breakdown`. -/
structure RankRow where
  rank : Nat
  registration_number : String
  student_name : String
  final_score : Int
  levels_completed : Int
  accuracy_rate : Rat
  time_remaining : Int
  completion_time : Nat
deriving DecidableEq, Repr

/-- Project a ranked leaderboard row to the rank query's column list. -/
def toRankRow (e : LbEntry) : RankRow :=
  { rank := e.rank
    registration_number := e.registration_number
    student_name := e.student_name
    final_score := e.final_score
    levels_completed := e.levels_completed
    accuracy_rate := e.accuracy_rate
    time_remaining := e.time_remaining
    completion_time := e.completion_time }

/-- The GET /api/rank/:registrationNumber handler's query: rank the whole
table with the same window order as the leaderboard, then select the row
for the key.  `none` is answered as HTTP 404 (student not found). -/
def rankOf (st : Store) (reg : String) : Option RankRow :=
  ((ranked st).find? (fun e => e.registration_number = reg)).map toRankRow

/-- The JSON body answered by a successful DELETE /api/admin/clear-all
(src/server.js lines 293-297): success flag, message, and the timestamp;
nothing else. -/
structure ClearAllResponse where
  success : Bool
  message : String
  timestamp : Nat
deriving DecidableEq, Repr

/-- Outcome of DELETE /api/admin/clear-all: HTTP 403, HTTP 500, or 200. -/
inductive ClearAllOutcome where
  | unauthorized : String → ClearAllOutcome
  | ok : ClearAllResponse → ClearAllOutcome
deriving DecidableEq, Repr

/-- The DELETE /api/admin/clear-all handler (src/server.js lines 270-299):
admin-key check, then `DELETE FROM tournament_scores`.  `AUTOINCREMENT`
keeps the rowid sequence across the delete. -/
def clearAll (st : Store) (adminKey : Option String) (now : Nat) :
    ClearAllOutcome × Store :=
  if adminKey = some "IEEE2025ADMIN" then
    (.ok { success := true
           message := "All tournament data has been cleared successfully."
           timestamp := now },
     { st with recs := [] })
  else
    (.unauthorized "Unauthorized. Admin key required.", st)

/-! ### Helper lemmas about `findRec` and single `submit` steps -/

theorem findRec_append (l1 l2 : List Rec) (k : String) :
    findRec (l1 ++ l2) k = (findRec l1 k).or (findRec l2 k) := by
  simp [findRec]

theorem findRec_singleton_self (r : Rec) (k : String)
    (h : r.registrationNumber = k) : findRec [r] k = some r := by
  simp [findRec, List.find?, h]

theorem findRec_map_update (l : List Rec) (k : String) (g : Rec → Rec)
    (hg : ∀ r, (g r).registrationNumber = r.registrationNumber) :
    findRec (l.map (fun r => if r.registrationNumber = k then g r else r)) k =
      (findRec l k).map g := by
  induction l with
  | nil => simp [findRec]
  | cons r rs ih =>
    by_cases h : r.registrationNumber = k
    · simp [findRec, List.find?, h, hg]
    · simp only [findRec, List.map_cons, if_neg h] at *
      rw [List.find?_cons_of_neg, List.find?_cons_of_neg] <;>
        simp [h, ih]

theorem mergeRow_registrationNumber (old : Rec) (name : String) (score : Int)
    (levels : Int) (acc : Rat) (time : Int) (breakdown : String) (ip : String)
    (sid : Option String) (now : Nat) :
    (mergeRow old name score levels acc time breakdown ip sid now).registrationNumber =
      old.registrationNumber := rfl

/-- A fresh submission (no existing row for the key, explicit integer score)
inserts a new row with the defaulted fields and reports the new rowid. -/
theorem submit_fresh (st : Store) (now : Nat) (ip : String) (req : SubmitReq)
    (k : String) (n : Int) (hreg : req.registrationNumber = some k) (hk : k ≠ "")
    (hscore : req.finalScore = JsInt.val n) (hfind : findRec st.recs k = none) :
    submit st now ip req =
      (SubmitOutcome.ok
        { success := true
          message := "Score submitted successfully!"
          scoreId := st.nextId
          rank := none },
       { recs := st.recs ++
           [{ id := st.nextId
              registrationNumber := k
              studentName := jsOrStr req.studentName "Anonymous"
              finalScore := n
              levelsCompleted := jsOrInt req.levelsCompleted 0
              accuracyRate := jsOrRat req.accuracyRate 0
              timeRemaining := jsOrInt req.timeRemaining 0
              levelBreakdown := jsBreakdown req.levelBreakdown
              completionTime := now
              ipAddress := ip
              sessionId := req.sessionId }]
         nextId := st.nextId + 1
         lastInsertId := st.nextId }) := by
  simp [submit, hreg, hk, hscore, upsertRun, hfind]

/-- A merging submission (existing row for the key, explicit integer score)
rewrites exactly the matching rows via `mergeRow` and reports the
connection's unchanged last-insert rowid. -/
theorem submit_merge (st : Store) (now : Nat) (ip : String) (req : SubmitReq)
    (k : String) (n : Int) (r : Rec)
    (hreg : req.registrationNumber = some k) (hk : k ≠ "")
    (hscore : req.finalScore = JsInt.val n) (hfind : findRec st.recs k = some r) :
    submit st now ip req =
      (SubmitOutcome.ok
        { success := true
          message := "Score submitted successfully!"
          scoreId := st.lastInsertId
          rank := none },
       { recs := st.recs.map (fun x =>
           if x.registrationNumber = k then
             mergeRow x (jsOrStr req.studentName "Anonymous") n
               (jsOrInt req.levelsCompleted 0) (jsOrRat req.accuracyRate 0)
               (jsOrInt req.timeRemaining 0) (jsBreakdown req.levelBreakdown)
               ip req.sessionId now
           else x)
         nextId := st.nextId
         lastInsertId := st.lastInsertId }) := by
  simp [submit, hreg, hk, hscore, upsertRun, hfind]

/-! ### `foldl max` characterisation -/

theorem foldl_max_mem (l : List Int) (a : Int) :
    l.foldl max a = a ∨ l.foldl max a ∈ l := by
  induction l generalizing a with
  | nil => left; rfl
  | cons x xs ih =>
    rcases ih (max a x) with h | h
    · rcases le_or_lt x a with hc | hc
      · left; rw [List.foldl_cons, h]; omega
      · right; rw [List.foldl_cons, h]
        have hx : max a x = x := by omega
        rw [hx]; exact List.mem_cons_self x xs
    · right; right; exact h

theorem foldl_max_ub (l : List Int) (a : Int) :
    a ≤ l.foldl max a ∧ ∀ x ∈ l, x ≤ l.foldl max a := by
  induction l generalizing a with
  | nil => exact ⟨le_refl a, by intro x hx; cases hx⟩
  | cons y ys ih =>
    obtain ⟨h1, h2⟩ := ih (max a y)
    refine ⟨by rw [List.foldl_cons]; omega, ?_⟩
    intro x hx
    rcases List.mem_cons.mp hx with rfl | hx
    · rw [List.foldl_cons]; have := h1; omega
    · rw [List.foldl_cons]; exact h2 x hx

/-! ### The best score across a sequence of submissions -/

theorem submitAll_cons (st : Store) (c : SubCall) (cs : List SubCall) :
    submitAll st (c :: cs) = submitAll (submit st c.now c.ip c.req).2 cs := rfl

/-- Running a sequence of well-formed submissions for key `k` against a
store already holding a row for `k` folds `max` over the submitted scores
on top of the stored score. -/
theorem submitAll_score (k : String) (hk : k ≠ "") :
    ∀ (calls : List SubCall) (st : Store) (r : Rec),
      (∀ c ∈ calls, IsCallFor k c) →
      findRec st.recs k = some r →
      ∃ r', findRec (submitAll st calls).recs k = some r' ∧
        r'.finalScore = (calls.map scoreOf).foldl max r.finalScore := by
  intro calls
  induction calls with
  | nil => intro st r _ hfind; exact ⟨r, hfind, rfl⟩
  | cons c cs ih =>
    intro st r hcalls hfind
    obtain ⟨hreg, hscore⟩ := hcalls c (List.mem_cons_self c cs)
    rw [submitAll_cons,
      submit_merge st c.now c.ip c.req k (scoreOf c) r hreg hk hscore hfind]
    have hfind' :
        findRec (st.recs.map (fun x =>
          if x.registrationNumber = k then
            mergeRow x (jsOrStr c.req.studentName "Anonymous") (scoreOf c)
              (jsOrInt c.req.levelsCompleted 0) (jsOrRat c.req.accuracyRate 0)
              (jsOrInt c.req.timeRemaining 0) (jsBreakdown c.req.levelBreakdown)
              c.ip c.req.sessionId c.now
          else x)) k =
          some (mergeRow r (jsOrStr c.req.studentName "Anonymous") (scoreOf c)
            (jsOrInt c.req.levelsCompleted 0) (jsOrRat c.req.accuracyRate 0)
            (jsOrInt c.req.timeRemaining 0) (jsBreakdown c.req.levelBreakdown)
            c.ip c.req.sessionId c.now) := by
      rw [findRec_map_update _ _ _ (fun x => mergeRow_registrationNumber x ..), hfind]
      rfl
    obtain ⟨r', h1, h2⟩ :=
      ih ⟨st.recs.map (fun x =>
            if x.registrationNumber = k then
              mergeRow x (jsOrStr c.req.studentName "Anonymous") (scoreOf c)
                (jsOrInt c.req.levelsCompleted 0) (jsOrRat c.req.accuracyRate 0)
                (jsOrInt c.req.timeRemaining 0) (jsBreakdown c.req.levelBreakdown)
                c.ip c.req.sessionId c.now
            else x), st.nextId, st.lastInsertId⟩
        (mergeRow r (jsOrStr c.req.studentName "Anonymous") (scoreOf c)
          (jsOrInt c.req.levelsCompleted 0) (jsOrRat c.req.accuracyRate 0)
          (jsOrInt c.req.timeRemaining 0) (jsBreakdown c.req.levelBreakdown)
          c.ip c.req.sessionId c.now)
        (fun x hx => hcalls x (List.mem_cons_of_mem c hx)) hfind'
    refine ⟨r', h1, ?_⟩
    rw [h2, List.map_cons, List.foldl_cons]
    congr 1
    simp only [mergeRow]
    split <;> omega

/-- Running a nonempty sequence of well-formed submissions for key `k`
against a store with no row for `k` leaves a row whose score is the fold of
`max` over all the submitted scores. -/
theorem submitAll_fresh_score (k : String) (hk : k ≠ "") (c : SubCall)
    (cs : List SubCall) (st : Store)
    (hcalls : ∀ x ∈ c :: cs, IsCallFor k x)
    (h0 : findRec st.recs k = none) :
    ∃ r', findRec (submitAll st (c :: cs)).recs k = some r' ∧
      r'.finalScore = (cs.map scoreOf).foldl max (scoreOf c) := by
  obtain ⟨hreg, hscore⟩ := hcalls c (List.mem_cons_self c cs)
  rw [submitAll_cons,
    submit_fresh st c.now c.ip c.req k (scoreOf c) hreg hk hscore h0]
  set newRec : Rec :=
    { id := st.nextId
      registrationNumber := k
      studentName := jsOrStr c.req.studentName "Anonymous"
      finalScore := scoreOf c
      levelsCompleted := jsOrInt c.req.levelsCompleted 0
      accuracyRate := jsOrRat c.req.accuracyRate 0
      timeRemaining := jsOrInt c.req.timeRemaining 0
      levelBreakdown := jsBreakdown c.req.levelBreakdown
      completionTime := c.now
      ipAddress := c.ip
      sessionId := c.req.sessionId } with hnew
  have hfind : findRec (st.recs ++ [newRec]) k = some newRec := by
    rw [findRec_append, h0, findRec_singleton_self newRec k rfl]
    rfl
  obtain ⟨r', h1, h2⟩ :=
    submitAll_score k hk cs
      ⟨st.recs ++ [newRec], st.nextId + 1, st.nextId⟩ newRec
      (fun x hx => hcalls x (List.mem_cons_of_mem c hx)) hfind
  exact ⟨r', h1, h2⟩

theorem foldl_max_spec (a : Int) (l : List Int) :
    l.foldl max a ∈ a :: l ∧ ∀ x ∈ a :: l, x ≤ l.foldl max a := by
  constructor
  · rcases foldl_max_mem l a with h | h
    · rw [h]; exact List.mem_cons_self a l
    · exact List.mem_cons_of_mem a h
  · intro x hx
    rcases List.mem_cons.mp hx with rfl | hx
    · exact (foldl_max_ub l x).1
    · exact (foldl_max_ub l a).2 x hx

/-- C1: For every key and every finite sequence of successful Submit calls
for that key with scores s1..sn, the stored row's best score after the whole
sequence equals max(s1..sn) — it is one of the submitted scores and an
upper bound of all of them, and any permutation of the same submissions
yields the same best score — and a single merge never decreases the stored
score (it becomes `max` of the old score and the incoming one). -/
theorem tournament_c1_best_score_is_max
    (k : String) (hk : k ≠ "") (st0 : Store) (h0 : findRec st0.recs k = none)
    (c : SubCall) (cs : List SubCall)
    (hcalls : ∀ x ∈ c :: cs, IsCallFor k x) :
    (∃ r, findRec (submitAll st0 (c :: cs)).recs k = some r ∧
       r.finalScore ∈ (c :: cs).map scoreOf ∧
       (∀ s ∈ (c :: cs).map scoreOf, s ≤ r.finalScore) ∧
       (∀ calls', (c :: cs).Perm calls' →
         ∃ r', findRec (submitAll st0 calls').recs k = some r' ∧
           r'.finalScore = r.finalScore)) ∧
    (∀ (st : Store) (now : Nat) (ip : String) (req : SubmitReq) (r0 : Rec)
       (n : Int),
       findRec st.recs k = some r0 → req.registrationNumber = some k →
       req.finalScore = JsInt.val n →
       ∃ r', findRec (submit st now ip req).2.recs k = some r' ∧
         r0.finalScore ≤ r'.finalScore ∧ r'.finalScore = max r0.finalScore n) := by
  constructor
  · obtain ⟨r, h1, h2⟩ := submitAll_fresh_score k hk c cs st0 hcalls h0
    have hspec := foldl_max_spec (scoreOf c) (cs.map scoreOf)
    have hr : r.finalScore ∈ scoreOf c :: cs.map scoreOf := by
      rw [h2]; exact hspec.1
    have hub : ∀ x ∈ scoreOf c :: cs.map scoreOf, x ≤ r.finalScore := by
      intro x hx; rw [h2]; exact hspec.2 x hx
    refine ⟨r, h1, ?_, ?_, ?_⟩
    · rw [List.map_cons]; exact hr
    · rw [List.map_cons]; exact hub
    · intro calls' hperm
      match calls' with
      | [] => exact absurd hperm.length_eq (by simp)
      | c' :: cs' =>
        have hcalls' : ∀ x ∈ c' :: cs', IsCallFor k x :=
          fun x hx => hcalls x (hperm.mem_iff.mpr hx)
        obtain ⟨r', h1', h2'⟩ :=
          submitAll_fresh_score k hk c' cs' st0 hcalls' h0
        have hspec' := foldl_max_spec (scoreOf c') (cs'.map scoreOf)
        rw [← h2'] at hspec'
        have hpm : ((c :: cs).map scoreOf).Perm ((c' :: cs').map scoreOf) :=
          hperm.map scoreOf
        rw [List.map_cons, List.map_cons] at hpm
        refine ⟨r', h1', le_antisymm ?_ ?_⟩
        · exact hub r'.finalScore (hpm.mem_iff.mpr hspec'.1)
        · exact hspec'.2 r.finalScore (hpm.mem_iff.mp hr)
  · intro st now ip req r0 n hfind hreg hscore
    rw [submit_merge st now ip req k n r0 hreg hk hscore hfind]
    refine ⟨mergeRow r0 (jsOrStr req.studentName "Anonymous") n
      (jsOrInt req.levelsCompleted 0) (jsOrRat req.accuracyRate 0)
      (jsOrInt req.timeRemaining 0) (jsBreakdown req.levelBreakdown)
      ip req.sessionId now, ?_, ?_, ?_⟩
    · rw [show (Store.mk (st.recs.map (fun x =>
          if x.registrationNumber = k then
            mergeRow x (jsOrStr req.studentName "Anonymous") n
              (jsOrInt req.levelsCompleted 0) (jsOrRat req.accuracyRate 0)
              (jsOrInt req.timeRemaining 0) (jsBreakdown req.levelBreakdown)
              ip req.sessionId now
          else x)) st.nextId st.lastInsertId).recs =
          st.recs.map (fun x =>
            if x.registrationNumber = k then
              mergeRow x (jsOrStr req.studentName "Anonymous") n
                (jsOrInt req.levelsCompleted 0) (jsOrRat req.accuracyRate 0)
                (jsOrInt req.timeRemaining 0) (jsBreakdown req.levelBreakdown)
                ip req.sessionId now
            else x) from rfl,
        findRec_map_update _ _ _ (fun x => mergeRow_registrationNumber x ..),
        hfind]
      rfl
    · simp only [mergeRow]
      split <;> omega
    · simp only [mergeRow]
      split <;> omega

/-- Concrete submission for key "A1" with score 300 at time 1. -/
def c1CallA : SubCall :=
  ⟨1, "ip1", ⟨some "A1", none, JsInt.val 300, none, none, none, none, none⟩⟩

/-- Concrete submission for key "A1" with score 500 at time 2. -/
def c1CallB : SubCall :=
  ⟨2, "ip2", ⟨some "A1", none, JsInt.val 500, none, none, none, none, none⟩⟩

theorem tournament_c1_best_score_is_max_witness :
    (∃ r, findRec (submitAll emptyStore (c1CallA :: [c1CallB])).recs "A1" = some r ∧
       r.finalScore ∈ (c1CallA :: [c1CallB]).map scoreOf ∧
       (∀ s ∈ (c1CallA :: [c1CallB]).map scoreOf, s ≤ r.finalScore) ∧
       (∀ calls', (c1CallA :: [c1CallB]).Perm calls' →
         ∃ r', findRec (submitAll emptyStore calls').recs "A1" = some r' ∧
           r'.finalScore = r.finalScore)) ∧
    (∀ (st : Store) (now : Nat) (ip : String) (req : SubmitReq) (r0 : Rec)
       (n : Int),
       findRec st.recs "A1" = some r0 → req.registrationNumber = some "A1" →
       req.finalScore = JsInt.val n →
       ∃ r', findRec (submit st now ip req).2.recs "A1" = some r' ∧
         r0.finalScore ≤ r'.finalScore ∧ r'.finalScore = max r0.finalScore n) :=
  tournament_c1_best_score_is_max "A1" (by decide) emptyStore (by decide)
    c1CallA [c1CallB] (by decide)

/-- C2: after two successful submissions for the same key, the stored
`levels_completed`, `accuracy_rate`, `time_remaining` and `level_breakdown`
are the (defaulted) values of the second, most recent submission and
`completion_time` is the second submission's time, while `final_score` is
the maximum of the two scores — even when the second score is lower. -/
theorem tournament_c2_overwrite_on_merge
    (st0 : Store) (k : String) (hk : k ≠ "")
    (req1 req2 : SubmitReq) (t1 t2 : Nat) (ip1 ip2 : String) (s1 s2 : Int)
    (h1r : req1.registrationNumber = some k) (h1s : req1.finalScore = JsInt.val s1)
    (h2r : req2.registrationNumber = some k) (h2s : req2.finalScore = JsInt.val s2)
    (h0 : findRec st0.recs k = none) :
    ∃ r, findRec (submit (submit st0 t1 ip1 req1).2 t2 ip2 req2).2.recs k = some r ∧
      r.finalScore = max s1 s2 ∧
      r.levelsCompleted = jsOrInt req2.levelsCompleted 0 ∧
      r.accuracyRate = jsOrRat req2.accuracyRate 0 ∧
      r.timeRemaining = jsOrInt req2.timeRemaining 0 ∧
      r.levelBreakdown = jsBreakdown req2.levelBreakdown ∧
      r.completionTime = t2 := by
  rw [submit_fresh st0 t1 ip1 req1 k s1 h1r hk h1s h0]
  set new1 : Rec :=
    { id := st0.nextId
      registrationNumber := k
      studentName := jsOrStr req1.studentName "Anonymous"
      finalScore := s1
      levelsCompleted := jsOrInt req1.levelsCompleted 0
      accuracyRate := jsOrRat req1.accuracyRate 0
      timeRemaining := jsOrInt req1.timeRemaining 0
      levelBreakdown := jsBreakdown req1.levelBreakdown
      completionTime := t1
      ipAddress := ip1
      sessionId := req1.sessionId } with hnew
  have hfind1 :
      findRec (Store.mk (st0.recs ++ [new1]) (st0.nextId + 1) st0.nextId).recs k =
        some new1 := by
    show findRec (st0.recs ++ [new1]) k = some new1
    rw [findRec_append, h0, findRec_singleton_self new1 k rfl]
    rfl
  rw [submit_merge _ t2 ip2 req2 k s2 new1 h2r hk h2s hfind1]
  refine ⟨mergeRow new1 (jsOrStr req2.studentName "Anonymous") s2
    (jsOrInt req2.levelsCompleted 0) (jsOrRat req2.accuracyRate 0)
    (jsOrInt req2.timeRemaining 0) (jsBreakdown req2.levelBreakdown)
    ip2 req2.sessionId t2, ?_, ?_, rfl, rfl, rfl, rfl, rfl⟩
  · show findRec ((st0.recs ++ [new1]).map _) k = _
    rw [findRec_map_update _ _ _ (fun x => mergeRow_registrationNumber x ..),
      hfind1]
    rfl
  · show (if s2 > new1.finalScore then s2 else new1.finalScore) = max s1 s2
    have : new1.finalScore = s1 := rfl
    rw [this]
    split <;> omega

/-- Spec scenario for C2: submitting "A1" with score 500 and 3 levels, then
"A1" with score 300 and 1 level, leaves best score 500 and 1 level. -/
theorem tournament_c2_overwrite_on_merge_witness :
    ∃ r, findRec (submit (submit emptyStore 1 "ip1"
        ⟨some "A1", none, JsInt.val 500, some 3, none, none, none, none⟩).2
        2 "ip2"
        ⟨some "A1", none, JsInt.val 300, some 1, none, none, none, none⟩).2.recs
        "A1" = some r ∧
      r.finalScore = max 500 300 ∧
      r.levelsCompleted = jsOrInt (some 1) 0 ∧
      r.accuracyRate = jsOrRat none 0 ∧
      r.timeRemaining = jsOrInt none 0 ∧
      r.levelBreakdown = jsBreakdown none ∧
      r.completionTime = 2 :=
  tournament_c2_overwrite_on_merge emptyStore "A1" (by decide)
    ⟨some "A1", none, JsInt.val 500, some 3, none, none, none, none⟩
    ⟨some "A1", none, JsInt.val 300, some 1, none, none, none, none⟩
    1 2 "ip1" "ip2" 500 300 rfl rfl rfl rfl (by decide)

/-- When validation fails, the handler answers HTTP 400 before touching the
database, so the store is untouched. -/
theorem submit_invalid (st : Store) (now : Nat) (ip : String) (req : SubmitReq)
    (h : req.registrationNumber.getD "" = "" ∨ req.finalScore = JsInt.undef) :
    submit st now ip req =
      (SubmitOutcome.invalidArgument
        "Registration number and final score are required.", st) := by
  unfold submit
  rw [if_pos h]

/-- A submission with a valid key and an explicitly `null` score passes
validation, but the upsert violates the `NOT NULL` constraint on
`final_score`, so the handler answers HTTP 500 and the store is untouched. -/
theorem submit_null (st : Store) (now : Nat) (ip : String) (req : SubmitReq)
    (k : String) (hreg : req.registrationNumber = some k) (hk : k ≠ "")
    (hnull : req.finalScore = JsInt.null) :
    submit st now ip req =
      (SubmitOutcome.dbError "Error saving score to database.", st) := by
  simp [submit, hreg, hk, hnull, upsertRun]

/-- Shape of a validation-passing submission: a `null` score yields the
database error, an integer score yields a successful response. -/
theorem submit_valid_shape (st : Store) (now : Nat) (ip : String)
    (req : SubmitReq) (k : String) (hreg : req.registrationNumber = some k)
    (hk : k ≠ "") (hnu : req.finalScore ≠ JsInt.undef) :
    (req.finalScore = JsInt.null ∧
      submit st now ip req =
        (SubmitOutcome.dbError "Error saving score to database.", st)) ∨
    (∃ n, req.finalScore = JsInt.val n ∧
      ∃ resp st', submit st now ip req = (SubmitOutcome.ok resp, st') ∧
        resp.success = true) := by
  cases hs : req.finalScore with
  | undef => exact absurd hs hnu
  | null => exact Or.inl ⟨rfl, submit_null st now ip req k hreg hk hs⟩
  | val n =>
    right
    refine ⟨n, rfl, ?_⟩
    cases hfind : findRec st.recs k with
    | none =>
      rw [submit_fresh st now ip req k n hreg hk hs hfind]
      exact ⟨_, _, rfl, rfl⟩
    | some r =>
      rw [submit_merge st now ip req k n r hreg hk hs hfind]
      exact ⟨_, _, rfl, rfl⟩

/-- C4: Submit fails with InvalidArgument exactly when the registration
number is missing/empty or the final score is not provided (undefined); on
such a failure the store is completely unchanged; and a submission whose
final score is explicitly 0 passes validation and is processed normally
(score must be explicitly provided, not merely truthy). -/
theorem tournament_c4_validation
    (st : Store) (now : Nat) (ip : String) (req : SubmitReq) :
    ((submit st now ip req).1 =
        SubmitOutcome.invalidArgument
          "Registration number and final score are required." ↔
      (req.registrationNumber.getD "" = "" ∨ req.finalScore = JsInt.undef)) ∧
    ((req.registrationNumber.getD "" = "" ∨ req.finalScore = JsInt.undef) →
      (submit st now ip req).2 = st) ∧
    (req.registrationNumber.getD "" ≠ "" → req.finalScore = JsInt.val 0 →
      ∃ resp, (submit st now ip req).1 = SubmitOutcome.ok resp ∧
        resp.success = true) := by
  by_cases hcond :
      req.registrationNumber.getD "" = "" ∨ req.finalScore = JsInt.undef
  · have heq := submit_invalid st now ip req hcond
    refine ⟨⟨fun _ => hcond, fun _ => by rw [heq]⟩, fun _ => by rw [heq], ?_⟩
    intro hne hz
    exfalso
    rcases hcond with h | h
    · exact hne h
    · rw [hz] at h; cases h
  · push_neg at hcond
    obtain ⟨hne, hnundef⟩ := hcond
    rcases hr : req.registrationNumber with _ | k
    · rw [hr] at hne; simp at hne
    · rw [hr] at hne
      have hk : k ≠ "" := by simpa using hne
      have hshape := submit_valid_shape st now ip req k hr hk hnundef
      refine ⟨⟨?_, fun h => absurd h (by push_neg; exact ⟨hne, hnundef⟩)⟩,
        fun h => absurd h (by push_neg; exact ⟨hne, hnundef⟩), ?_⟩
      · intro h
        rcases hshape with ⟨_, heq⟩ | ⟨n, _, resp, st', heq, _⟩ <;>
          rw [heq] at h <;> simp at h
      · intro _ hz
        rcases hshape with ⟨hnull, _⟩ | ⟨n, _, resp, st', heq, hsucc⟩
        · rw [hz] at hnull; cases hnull
        · exact ⟨resp, by rw [heq], hsucc⟩

theorem tournament_c4_validation_witness :
    ((submit emptyStore 1 "ip"
        ⟨some "A1", none, JsInt.val 0, none, none, none, none, none⟩).1 =
        SubmitOutcome.invalidArgument
          "Registration number and final score are required." ↔
      ((some "A1" : Option String).getD "" = "" ∨
        JsInt.val 0 = JsInt.undef)) ∧
    (((some "A1" : Option String).getD "" = "" ∨ JsInt.val 0 = JsInt.undef) →
      (submit emptyStore 1 "ip"
        ⟨some "A1", none, JsInt.val 0, none, none, none, none, none⟩).2 =
        emptyStore) ∧
    ((some "A1" : Option String).getD "" ≠ "" → JsInt.val 0 = JsInt.val 0 →
      ∃ resp, (submit emptyStore 1 "ip"
        ⟨some "A1", none, JsInt.val 0, none, none, none, none, none⟩).1 =
          SubmitOutcome.ok resp ∧ resp.success = true) :=
  tournament_c4_validation emptyStore 1 "ip"
    ⟨some "A1", none, JsInt.val 0, none, none, none, none, none⟩

/-- C5: Stats on an empty store returns participant count 0 and `NULL`
(absent) maximum and averages — no zero, no error, no division-derived
garbage. -/
theorem tournament_c5_empty_stats (st : Store) (h : st.recs = []) :
    stats st = ⟨0, none, none, none, none⟩ := by
  simp [stats, h]

theorem tournament_c5_empty_stats_witness :
    stats emptyStore = ⟨0, none, none, none, none⟩ :=
  tournament_c5_empty_stats emptyStore rfl

/-- C10: with a valid registration number, only a literally absent
(undefined) final score is rejected as InvalidArgument; an explicitly
`null` final score passes validation and instead fails at the storage
layer (`NOT NULL` constraint, surfaced as the HTTP 500 database error),
leaving the store unchanged; an integer final score is never rejected as
InvalidArgument. -/
theorem tournament_c10_null_vs_undefined
    (st : Store) (now : Nat) (ip : String) (req : SubmitReq) (k : String)
    (hreg : req.registrationNumber = some k) (hk : k ≠ "") :
    (req.finalScore = JsInt.null →
      (submit st now ip req).1 =
        SubmitOutcome.dbError "Error saving score to database." ∧
      (submit st now ip req).2 = st) ∧
    (req.finalScore = JsInt.undef →
      (submit st now ip req).1 =
        SubmitOutcome.invalidArgument
          "Registration number and final score are required.") ∧
    (∀ n, req.finalScore = JsInt.val n →
      (submit st now ip req).1 ≠
        SubmitOutcome.invalidArgument
          "Registration number and final score are required.") := by
  refine ⟨?_, ?_, ?_⟩
  · intro hnull
    rw [submit_null st now ip req k hreg hk hnull]
    exact ⟨rfl, rfl⟩
  · intro hundef
    rw [submit_invalid st now ip req (Or.inr hundef)]
  · intro n hval
    cases hfind : findRec st.recs k with
    | none =>
      rw [submit_fresh st now ip req k n hreg hk hval hfind]
      simp
    | some r =>
      rw [submit_merge st now ip req k n r hreg hk hval hfind]
      simp

theorem tournament_c10_null_vs_undefined_witness :
    ((⟨some "A1", none, JsInt.null, none, none, none, none, none⟩ :
        SubmitReq).finalScore = JsInt.null →
      (submit emptyStore 1 "ip"
        ⟨some "A1", none, JsInt.null, none, none, none, none, none⟩).1 =
        SubmitOutcome.dbError "Error saving score to database." ∧
      (submit emptyStore 1 "ip"
        ⟨some "A1", none, JsInt.null, none, none, none, none, none⟩).2 =
        emptyStore) ∧
    ((⟨some "A1", none, JsInt.null, none, none, none, none, none⟩ :
        SubmitReq).finalScore = JsInt.undef →
      (submit emptyStore 1 "ip"
        ⟨some "A1", none, JsInt.null, none, none, none, none, none⟩).1 =
        SubmitOutcome.invalidArgument
          "Registration number and final score are required.") ∧
    (∀ n, (⟨some "A1", none, JsInt.null, none, none, none, none, none⟩ :
        SubmitReq).finalScore = JsInt.val n →
      (submit emptyStore 1 "ip"
        ⟨some "A1", none, JsInt.null, none, none, none, none, none⟩).1 ≠
        SubmitOutcome.invalidArgument
          "Registration number and final score are required.") :=
  tournament_c10_null_vs_undefined emptyStore 1 "ip"
    ⟨some "A1", none, JsInt.null, none, none, none, none, none⟩
    "A1" rfl (by decide)

/-! ### The ranking order and the leaderboard -/

theorem lbLE_trans : ∀ (a b c : Rec), lbLE a b → lbLE b c → lbLE a c := by
  intro a b c hab hbc
  simp only [lbLE, decide_eq_true_eq] at *
  omega

theorem lbLE_total : ∀ (a b : Rec), lbLE a b || lbLE b a := by
  intro a b
  simp only [lbLE, Bool.or_eq_true, decide_eq_true_eq]
  omega

theorem rankRows_length (i : Nat) (l : List Rec) :
    (rankRows i l).length = l.length := by
  induction l generalizing i <;> simp [rankRows, *]

theorem rankRows_getElem? (i : Nat) (l : List Rec) (j : Nat) :
    (rankRows i l)[j]? = l[j]?.map (fun r => toEntry (i + j) r) := by
  induction l generalizing i j with
  | nil => simp [rankRows]
  | cons r rs ih =>
    cases j with
    | zero => simp [rankRows]
    | succ j =>
      simp only [rankRows, List.getElem?_cons_succ]
      have h : i + (j + 1) = (i + 1) + j := by omega
      rw [h]
      exact ih (i + 1) j

theorem ranked_length (st : Store) : (ranked st).length = st.recs.length := by
  rw [ranked, rankRows_length, List.length_mergeSort]

/-- Any two positions of the full ranked table satisfy the SQL order
(`final_score DESC, completion_time ASC`), and their ranks are the 1-based
positions. -/
theorem ranked_pairs (st : Store) (i j : Nat) (e1 e2 : LbEntry)
    (hij : i < j) (h1 : (ranked st)[i]? = some e1)
    (h2 : (ranked st)[j]? = some e2) :
    (e2.final_score < e1.final_score ∨
      (e1.final_score = e2.final_score ∧
        e1.completion_time ≤ e2.completion_time)) ∧
    e1.rank = i + 1 ∧ e2.rank = j + 1 := by
  rw [ranked, rankRows_getElem?] at h1 h2
  cases hr1 : (st.recs.mergeSort lbLE)[i]? with
  | none => rw [hr1] at h1; cases h1
  | some r1 =>
    cases hr2 : (st.recs.mergeSort lbLE)[j]? with
    | none => rw [hr2] at h2; cases h2
    | some r2 =>
      rw [hr1] at h1
      rw [hr2] at h2
      simp only [Option.map_some', Option.some_inj] at h1 h2
      obtain ⟨hi, hgi⟩ := List.getElem?_eq_some_iff.mp hr1
      obtain ⟨hj, hgj⟩ := List.getElem?_eq_some_iff.mp hr2
      have hsorted :=
        List.sorted_mergeSort lbLE_trans lbLE_total st.recs
      have hle : lbLE r1 r2 := by
        have := List.pairwise_iff_getElem.mp hsorted i j hi hj hij
        rwa [hgi, hgj] at this
      simp only [lbLE, decide_eq_true_eq] at hle
      rw [← h1, ← h2]
      simp only [toEntry]
      refine ⟨?_, by omega, by omega⟩
      simpa using hle

/-- Every row of a leaderboard page sits in the full ranked table at its
offset-shifted position. -/
theorem leaderboard_getElem?_eq (st : Store) (limitQ offsetQ : Option Int)
    (i : Nat) (e : LbEntry)
    (h : (leaderboard st limitQ offsetQ)[i]? = some e) :
    (ranked st)[(parseOffset offsetQ).toNat + i]? = some e := by
  by_cases hl : parseLimit limitQ < 0
  · simp only [leaderboard, if_pos hl, List.getElem?_drop] at h
    exact h
  · simp only [leaderboard, if_neg hl, List.getElem?_take] at h
    split at h
    · rwa [List.getElem?_drop] at h
    · cases h

/-- With both query parameters absent, the leaderboard is the first 100
ranked rows (`LIMIT 100 OFFSET 0`). -/
theorem leaderboard_default (st : Store) :
    leaderboard st none none = (ranked st).take 100 := by
  simp [leaderboard, parseLimit, parseOffset]

/-- Request body of the spec's C3 scenario: key "B1", score 100. -/
def reqB1 : SubmitReq := ⟨some "B1", none, JsInt.val 100, none, none, none, none, none⟩

/-- Request body of the spec's C3 scenario: key "C1", score 100. -/
def reqC1 : SubmitReq := ⟨some "C1", none, JsInt.val 100, none, none, none, none, none⟩

/-- C3: on every leaderboard page, two rows with equal best score appear in
ascending submission-time order (the leaderboard is a pure function of the
store state, so repeated calls are identical by definition); in particular,
submitting "B1" with score 100 at t1 and "C1" with score 100 at t2 > t1
puts B1 at rank 1 and C1 at rank 2. -/
theorem tournament_c3_tie_break (t1 t2 : Nat) (ht : t1 < t2)
    (ip1 ip2 : String) :
    (∀ (st : Store) (limitQ offsetQ : Option Int) (i j : Nat)
       (e1 e2 : LbEntry),
      i < j →
      (leaderboard st limitQ offsetQ)[i]? = some e1 →
      (leaderboard st limitQ offsetQ)[j]? = some e2 →
      e1.final_score = e2.final_score →
      e1.completion_time ≤ e2.completion_time) ∧
    (∃ e1 e2,
      leaderboard (submit (submit emptyStore t1 ip1 reqB1).2 t2 ip2 reqC1).2
        none none = [e1, e2] ∧
      e1.rank = 1 ∧ e1.registration_number = "B1" ∧
      e2.rank = 2 ∧ e2.registration_number = "C1") := by
  constructor
  · intro st limitQ offsetQ i j e1 e2 hij h1 h2 hfs
    have h1' := leaderboard_getElem?_eq st limitQ offsetQ i e1 h1
    have h2' := leaderboard_getElem?_eq st limitQ offsetQ j e2 h2
    have hpairs := ranked_pairs st ((parseOffset offsetQ).toNat + i)
      ((parseOffset offsetQ).toNat + j) e1 e2 (by omega) h1' h2'
    rcases hpairs.1 with h | h
    · omega
    · exact h.2
  · have hsorted :
        ([⟨1, "B1", "Anonymous", 100, 0, 0, 0, "{}", t1, ip1, none⟩,
          ⟨2, "C1", "Anonymous", 100, 0, 0, 0, "{}", t2, ip2, none⟩] :
            List Rec).Pairwise (fun a b => lbLE a b) := by
      refine List.Pairwise.cons ?_ (List.pairwise_singleton _ _)
      intro b hb
      rcases List.mem_singleton.mp hb with rfl
      simp only [lbLE, decide_eq_true_eq]
      right
      exact ⟨trivial, le_of_lt ht⟩
    have hms := List.mergeSort_of_sorted hsorted
    refine ⟨toEntry 0 ⟨1, "B1", "Anonymous", 100, 0, 0, 0, "{}", t1, ip1, none⟩,
      toEntry 1 ⟨2, "C1", "Anonymous", 100, 0, 0, 0, "{}", t2, ip2, none⟩,
      ?_, rfl, rfl, rfl, rfl⟩
    show leaderboard
      ⟨[⟨1, "B1", "Anonymous", 100, 0, 0, 0, "{}", t1, ip1, none⟩,
        ⟨2, "C1", "Anonymous", 100, 0, 0, 0, "{}", t2, ip2, none⟩], 3, 2⟩
      none none = _
    rw [leaderboard_default, ranked]
    show (rankRows 0
        (([⟨1, "B1", "Anonymous", 100, 0, 0, 0, "{}", t1, ip1, none⟩,
           ⟨2, "C1", "Anonymous", 100, 0, 0, 0, "{}", t2, ip2, none⟩] :
            List Rec).mergeSort lbLE)).take 100 = _
    rw [hms]
    rfl

theorem tournament_c3_tie_break_witness :
    (∀ (st : Store) (limitQ offsetQ : Option Int) (i j : Nat)
       (e1 e2 : LbEntry),
      i < j →
      (leaderboard st limitQ offsetQ)[i]? = some e1 →
      (leaderboard st limitQ offsetQ)[j]? = some e2 →
      e1.final_score = e2.final_score →
      e1.completion_time ≤ e2.completion_time) ∧
    (∃ e1 e2,
      leaderboard (submit (submit emptyStore 10 "ipB" reqB1).2 20 "ipC"
        reqC1).2 none none = [e1, e2] ∧
      e1.rank = 1 ∧ e1.registration_number = "B1" ∧
      e2.rank = 2 ∧ e2.registration_number = "C1") :=
  tournament_c3_tie_break 10 20 (by decide) "ipB" "ipC"

/-! ### Rank lookup consistency -/

theorem rankRows_map_reg (i : Nat) (l : List Rec) :
    (rankRows i l).map (fun e => e.registration_number) =
      l.map (fun r => r.registrationNumber) := by
  induction l generalizing i <;> simp [rankRows, toEntry, *]

/-- With limit equal to the table size and offset 0, the leaderboard is the
whole ranked table. -/
theorem leaderboard_full (st : Store) (h : st.recs ≠ []) :
    leaderboard st (some (st.recs.length : Int)) (some 0) = ranked st := by
  have hlen : 0 < st.recs.length := List.length_pos.mpr h
  have hne : (st.recs.length : Int) ≠ 0 := by
    exact_mod_cast Nat.pos_iff_ne_zero.mp hlen
  have h1 : parseLimit (some (st.recs.length : Int)) =
      (st.recs.length : Int) := by
    simp only [parseLimit]
    rw [if_neg hne]
  have h2 : parseOffset (some 0) = 0 := by simp [parseOffset]
  simp only [leaderboard, h1, h2]
  rw [if_neg (by omega : ¬ (st.recs.length : Int) < 0)]
  simp only [Int.toNat_zero, List.drop_zero, Int.toNat_natCast]
  rw [← ranked_length st, List.take_length]

/-- C6: for every key present in the store, the rank endpoint returns that
key's ranked row, whose rank is exactly the 1-based position of the key in
the full leaderboard (limit = table size, offset 0), computed under the
same `final_score DESC, completion_time ASC` order, and that position is
unique; for every absent key it returns nothing (HTTP 404 NotFound). -/
theorem tournament_c6_rank_consistency (st : Store) (hwf : st.WF)
    (reg : String) :
    (reg ∈ st.recs.map (fun r => r.registrationNumber) →
      ∃ row e, rankOf st reg = some row ∧ row = toRankRow e ∧
        e.registration_number = reg ∧
        (leaderboard st (some (st.recs.length : Int)) (some 0))[e.rank - 1]? =
          some e ∧
        (∀ j e',
          (leaderboard st (some (st.recs.length : Int)) (some 0))[j]? =
            some e' →
          e'.registration_number = reg → j = e.rank - 1)) ∧
    (reg ∉ st.recs.map (fun r => r.registrationNumber) →
      rankOf st reg = none) := by
  have hperm :
      ((st.recs.mergeSort lbLE).map (fun r => r.registrationNumber)).Perm
        (st.recs.map (fun r => r.registrationNumber)) :=
    (List.mergeSort_perm st.recs lbLE).map _
  constructor
  · intro hmem
    have hne : st.recs ≠ [] := by
      rintro hnil
      rw [hnil] at hmem
      simp at hmem
    have hmem' : reg ∈ (ranked st).map (fun e => e.registration_number) := by
      rw [ranked, rankRows_map_reg]
      exact hperm.mem_iff.mpr hmem
    obtain ⟨e, he, hereg⟩ := List.mem_map.mp hmem'
    obtain ⟨e0, hfind⟩ : ∃ e0,
        (ranked st).find? (fun e => e.registration_number = reg) = some e0 := by
      have hsome : ((ranked st).find?
          (fun e => e.registration_number = reg)).isSome := by
        rw [List.find?_isSome]
        exact ⟨e, he, by simp [hereg]⟩
      exact Option.isSome_iff_exists.mp hsome
    have hereg0 : e0.registration_number = reg := by
      simpa using List.find?_some hfind
    have hmem0 : e0 ∈ ranked st := List.mem_of_find?_eq_some hfind
    obtain ⟨n, hn⟩ := List.mem_iff_getElem?.mp hmem0
    have hrank : e0.rank = n + 1 := by
      rw [ranked, rankRows_getElem?] at hn
      cases hg : (st.recs.mergeSort lbLE)[n]? with
      | none => rw [hg] at hn; cases hn
      | some r =>
        rw [hg] at hn
        simp only [Option.map_some', Option.some_inj] at hn
        rw [← hn]
        simp [toEntry]
    have hnodup : ((ranked st).map (fun e => e.registration_number)).Nodup := by
      rw [ranked, rankRows_map_reg]
      exact (hperm.nodup_iff).mpr (List.pairwise_map.mpr hwf)
    refine ⟨toRankRow e0, e0, ?_, rfl, hereg0, ?_, ?_⟩
    · rw [rankOf, hfind]
      rfl
    · rw [leaderboard_full st hne, hrank]
      simpa using hn
    · intro j e' hj hj'
      rw [leaderboard_full st hne] at hj
      have hjm : ((ranked st).map (fun x => x.registration_number))[j]? =
          some reg := by
        rw [List.getElem?_map, hj]
        simp [hj']
      have hnm : ((ranked st).map (fun x => x.registration_number))[n]? =
          some reg := by
        rw [List.getElem?_map, hn]
        simp [hereg0]
      have hjlt : j < (ranked st).length :=
        (List.getElem?_eq_some_iff.mp hj).1
      have hjn : j = n :=
        List.getElem?_inj (by simpa using hjlt) hnodup (hjm.trans hnm.symm)
      omega
  · intro hmem
    rw [rankOf]
    have hnonef :
        (ranked st).find? (fun e => e.registration_number = reg) = none := by
      rw [List.find?_eq_none]
      intro e he
      simp only [decide_eq_true_eq]
      intro hcontra
      apply hmem
      have hmm : e.registration_number ∈
          (ranked st).map (fun x => x.registration_number) :=
        List.mem_map_of_mem _ he
      rw [ranked, rankRows_map_reg] at hmm
      rw [← hcontra]
      exact hperm.mem_iff.mp hmm
    rw [hnonef]
    rfl

/-- Concrete two-row store for exercising the rank endpoint: "B1" then
"C1", both score 100, at times 1 and 2. -/
def c6Store : Store := (submit (submit emptyStore 1 "ipB" reqB1).2 2 "ipC" reqC1).2

theorem tournament_c6_rank_consistency_witness :
    ("B1" ∈ c6Store.recs.map (fun r => r.registrationNumber) →
      ∃ row e, rankOf c6Store "B1" = some row ∧ row = toRankRow e ∧
        e.registration_number = "B1" ∧
        (leaderboard c6Store (some (c6Store.recs.length : Int))
          (some 0))[e.rank - 1]? = some e ∧
        (∀ j e',
          (leaderboard c6Store (some (c6Store.recs.length : Int))
            (some 0))[j]? = some e' →
          e'.registration_number = "B1" → j = e.rank - 1)) ∧
    ("B1" ∉ c6Store.recs.map (fun r => r.registrationNumber) →
      rankOf c6Store "B1" = none) :=
  tournament_c6_rank_consistency c6Store (by decide) "B1"

/-! ### Leaderboard limit parsing, submit response shape, clear-all -/

/-- One-row store for exercising the leaderboard limit parsing: "D1",
score 50, submitted at time 1. -/
def c7Store : Store :=
  (submit emptyStore 1 "ip"
    ⟨some "D1", none, JsInt.val 50, none, none, none, none, none⟩).2

/-- Counterexample to C7: with the limit query parameter explicitly `0`,
the leaderboard of a one-row store is NOT empty — `parseInt(limit) || 100`
treats the explicit 0 as falsy and substitutes the default 100, so the row
is returned. -/
theorem tournament_c7_counterexample :
    leaderboard c7Store (some 0) (some 0) ≠ [] ∧
    (leaderboard c7Store (some 0) (some 0)).length = 1 := by
  have h : leaderboard c7Store (some 0) (some 0) =
      [toEntry 0 ⟨1, "D1", "Anonymous", 50, 0, 0, 0, "{}", 1, "ip", none⟩] := by
    show leaderboard
      ⟨[⟨1, "D1", "Anonymous", 50, 0, 0, 0, "{}", 1, "ip", none⟩], 2, 1⟩
      (some 0) (some 0) = _
    simp [leaderboard, parseLimit, parseOffset, ranked, rankRows]
  rw [h]
  exact ⟨by simp, by simp⟩

/-- C7 as amended: an explicitly specified limit of 0 is falsy in
`parseInt(req.query.limit) || 100`, so it falls back to the default 100 and
the call returns the slice `[offset, offset + 100)` of the ranked table,
not the empty slice. -/
theorem tournament_c7_limit_zero_uses_default
    (st : Store) (offsetQ : Option Int) :
    leaderboard st (some 0) offsetQ =
      ((ranked st).drop (parseOffset offsetQ).toNat).take 100 := by
  simp [leaderboard, parseLimit]

/-- Submission of "A1", score 500. -/
def c8Req1 : SubmitReq :=
  ⟨some "A1", none, JsInt.val 500, none, none, none, none, none⟩

/-- Submission of "B2", score 400. -/
def c8Req2 : SubmitReq :=
  ⟨some "B2", none, JsInt.val 400, none, none, none, none, none⟩

/-- Store holding "A1" (rowid 1) then "B2" (rowid 2); the connection's last
insert rowid is 2. -/
def c8Store : Store :=
  (submit (submit emptyStore 1 "ip" c8Req1).2 2 "ip" c8Req2).2

/-- Counterexample to C8: resubmitting "A1" into a store that already holds
"A1" (a merge, not a creation) yields a response whose only boolean field,
`success`, is `true` — not a flag that is true exactly when no record
existed — and whose `scoreId` is 2, the rowid of the unrelated last-inserted
record "B2", not the identity 1 of the affected "A1" record. -/
theorem tournament_c8_counterexample :
    (findRec c8Store.recs "A1").isSome = true ∧
    (findRec c8Store.recs "A1").map Rec.id = some 1 ∧
    (submit c8Store 3 "ip" c8Req1).1 =
      SubmitOutcome.ok ⟨true, "Score submitted successfully!", 2, none⟩ := by
  decide

/-- C8 as amended: every successful Submit answers `success := true`
(whether it created or merged), a fixed message, `rank := null`, and
`scoreId` equal to the connection's last-insert rowid — which identifies
the affected record only on a fresh insert; on a merge it is the unchanged
previous last-insert rowid.  No response field indicates create-vs-merge. -/
theorem tournament_c8_submit_response (st : Store) (now : Nat) (ip : String)
    (req : SubmitReq) (k : String) (n : Int)
    (hreg : req.registrationNumber = some k) (hk : k ≠ "")
    (hscore : req.finalScore = JsInt.val n) :
    (submit st now ip req).1 =
      SubmitOutcome.ok ⟨true, "Score submitted successfully!",
        (submit st now ip req).2.lastInsertId, none⟩ ∧
    (findRec st.recs k = none →
      (submit st now ip req).2.lastInsertId = st.nextId) ∧
    (∀ r, findRec st.recs k = some r →
      (submit st now ip req).2.lastInsertId = st.lastInsertId) := by
  cases hfind : findRec st.recs k with
  | none =>
    rw [submit_fresh st now ip req k n hreg hk hscore hfind]
    exact ⟨rfl, fun _ => rfl, fun r hr => Option.noConfusion hr⟩
  | some r =>
    rw [submit_merge st now ip req k n r hreg hk hscore hfind]
    exact ⟨rfl, fun h => Option.noConfusion h, fun r' _ => rfl⟩

theorem tournament_c8_submit_response_witness :
    (submit emptyStore 1 "ip" c8Req1).1 =
      SubmitOutcome.ok ⟨true, "Score submitted successfully!",
        (submit emptyStore 1 "ip" c8Req1).2.lastInsertId, none⟩ ∧
    (findRec emptyStore.recs "A1" = none →
      (submit emptyStore 1 "ip" c8Req1).2.lastInsertId = emptyStore.nextId) ∧
    (∀ r, findRec emptyStore.recs "A1" = some r →
      (submit emptyStore 1 "ip" c8Req1).2.lastInsertId =
        emptyStore.lastInsertId) :=
  tournament_c8_submit_response emptyStore 1 "ip" c8Req1 "A1" 500 rfl
    (by decide) rfl

/-- One-row store for the clear-all counterexample. -/
def c9StoreA : Store :=
  (submit emptyStore 1 "ip"
    ⟨some "E1", none, JsInt.val 10, none, none, none, none, none⟩).2

/-- Two-row store for the clear-all counterexample. -/
def c9StoreB : Store :=
  (submit (submit emptyStore 1 "ip"
      ⟨some "E1", none, JsInt.val 10, none, none, none, none, none⟩).2
    2 "ip"
    ⟨some "E2", none, JsInt.val 20, none, none, none, none, none⟩).2

/-- Counterexample to C9: clearing a one-row store and clearing a two-row
store produce identical responses, so the response cannot carry the count
of removed records. -/
theorem tournament_c9_counterexample :
    c9StoreA.recs.length = 1 ∧ c9StoreB.recs.length = 2 ∧
    (clearAll c9StoreA (some "IEEE2025ADMIN") 7).1 =
      (clearAll c9StoreB (some "IEEE2025ADMIN") 7).1 := by decide

/-- C9 as amended: clear-all with the valid admin key removes every record
(the table is empty afterwards) and answers success, a fixed message and a
timestamp — but no count of removed records (the response is independent of
the prior table contents). -/
theorem tournament_c9_clear_all (st : Store) (now : Nat) :
    (clearAll st (some "IEEE2025ADMIN") now).2.recs = [] ∧
    (clearAll st (some "IEEE2025ADMIN") now).1 =
      ClearAllOutcome.ok ⟨true,
        "All tournament data has been cleared successfully.", now⟩ := by
  constructor <;> simp [clearAll]
